import Mathlib

/-!
Shallow embedding of the webrtc-mvp signaling server core
(authoritative variant: the complete server in src/unnamed/part_001,
first document — room directory, display-name registry, activity
tracker / rate limiting, validators, and the socket event handlers).

JS `Map`s are modelled as association lists that keep insertion order
(`Map.set` replaces the value in place for an existing key and appends
for a new one); JS `Set`s of socket ids are insertion-ordered lists
without duplicates.  `Date.now()` timestamps are naturals passed in
explicitly.  Emitted socket events are collected as a list of
(recipient socket id, event) pairs: `socket.emit` targets the sender,
`socket.to(room).emit` targets every member of the room except the
sender, and `io.to(id).emit` targets exactly `id`.
-/

namespace Webrtc

/-- Lookup in an insertion-ordered association list (JS `Map.get`). -/
def alistGet {β : Type} : List (String × β) → String → Option β
  | [], _ => none
  | p :: ps, k => if p.1 = k then some p.2 else alistGet ps k

/-- JS `Map.set`: replace in place when the key is present, append otherwise. -/
def alistSet {β : Type} (k : String) (v : β) : List (String × β) → List (String × β)
  | [] => [(k, v)]
  | p :: ps => if p.1 = k then (k, v) :: ps else p :: alistSet k v ps

/-- JS `Map.delete`. -/
def alistErase {β : Type} (k : String) : List (String × β) → List (String × β)
  | [] => []
  | p :: ps => if p.1 = k then alistErase k ps else p :: alistErase k ps

/-- JS `Set.add`: append when absent, keep position when present. -/
def setAdd (x : String) (s : List String) : List String :=
  if x ∈ s then s else s ++ [x]

/-- JS `Set.delete`. -/
def setDelete (x : String) : List String → List String
  | [] => []
  | y :: ys => if y = x then setDelete x ys else y :: setDelete x ys

/-- Per-connection activity record (`userActivity` map values). -/
structure Activity where
  lastActivity : Nat
  messageCount : Nat
  lastMessageReset : Nat
  roomJoins : Nat
  lastRoomJoinReset : Nat
deriving DecidableEq

/- BOT_PROTECTION constants. -/

def MAX_MESSAGES_PER_MINUTE : Nat := 10

def MAX_ROOMS_PER_HOUR : Nat := 5

def MIN_TIME_BETWEEN_MESSAGES : Nat := 1000

def MAX_MESSAGE_LENGTH : Nat := 500

def MAX_USERNAME_LENGTH : Nat := 20

/-- `initializeUserActivity`: the record stored at connect time. -/
def initialActivity (now : Nat) : Activity :=
  { lastActivity := now, messageCount := 0, lastMessageReset := now,
    roomJoins := 0, lastRoomJoinReset := now }

/-- `checkMessageRate` acting on the `userActivity` map: returns the
boolean verdict and the (possibly mutated) map.  The in-place JS
mutations of the record become map updates. -/
def checkMessageRate (act : List (String × Activity)) (sid : String) (now : Nat) :
    Bool × List (String × Activity) :=
  match alistGet act sid with
  | none => (true, act)
  | some a =>
    if now - a.lastActivity < MIN_TIME_BETWEEN_MESSAGES then (false, act)
    else
      let rst := now - a.lastMessageReset > 60000
      let a1 := if rst then { a with messageCount := 0, lastMessageReset := now } else a
      let act1 := if rst then alistSet sid a1 act else act
      if a1.messageCount ≥ MAX_MESSAGES_PER_MINUTE then (false, act1)
      else (true, alistSet sid { a1 with messageCount := a1.messageCount + 1 } act1)

/-- `checkRoomJoinRate` acting on the `userActivity` map. -/
def checkRoomJoinRate (act : List (String × Activity)) (sid : String) (now : Nat) :
    Bool × List (String × Activity) :=
  match alistGet act sid with
  | none => (true, act)
  | some a =>
    let rst := now - a.lastRoomJoinReset > 3600000
    let a1 := if rst then { a with roomJoins := 0, lastRoomJoinReset := now } else a
    let act1 := if rst then alistSet sid a1 act else act
    if a1.roomJoins ≥ MAX_ROOMS_PER_HOUR then (false, act1)
    else (true, alistSet sid { a1 with roomJoins := a1.roomJoins + 1 } act1)

/-- JS `String.prototype.trim` modelled on the character list (whitespace
modelled by `Char.isWhitespace`). -/
def trimChars (cs : List Char) : List Char :=
  ((cs.dropWhile Char.isWhitespace).reverse.dropWhile Char.isWhitespace).reverse

/-- Helper for the regex `(.)\1{10,}`: the list starts with `k` copies of `c`. -/
def runOfFrom (c : Char) : Nat → List Char → Bool
  | 0, _ => true
  | _ + 1, [] => false
  | k + 1, d :: ds => if d = c then runOfFrom c k ds else false

/-- Some character occurs at least `k` times consecutively. -/
def hasSameCharRun (k : Nat) : List Char → Bool
  | [] => decide (k = 0)
  | c :: cs => runOfFrom c k (c :: cs) || hasSameCharRun k cs

/-- Helper for `[A-Z]{10,}` and `[0-9]{10,}`: `k` consecutive chars in the class. -/
def classRunFrom (p : Char → Bool) : Nat → List Char → Bool
  | 0, _ => true
  | _ + 1, [] => false
  | k + 1, d :: ds => p d && classRunFrom p k ds

/-- `k` consecutive characters of the class occur somewhere. -/
def hasClassRun (p : Char → Bool) (k : Nat) : List Char → Bool
  | [] => decide (k = 0)
  | c :: cs => classRunFrom p k (c :: cs) || hasClassRun p k cs

/-- The list starts with the given literal characters. -/
def startsWithChars : List Char → List Char → Bool
  | [], _ => true
  | _ :: _, [] => false
  | c :: cs, d :: ds => if d = c then startsWithChars cs ds else false

/-- The regex `https?:\/\/[^\s]+` matches at the head of the list
(the JS whitespace class is modelled by `Char.isWhitespace`). -/
def urlMatchAt (cs : List Char) : Bool :=
  (startsWithChars "https://".data cs &&
    match cs.drop 8 with
    | [] => false
    | c :: _ => !c.isWhitespace) ||
  (startsWithChars "http://".data cs &&
    match cs.drop 7 with
    | [] => false
    | c :: _ => !c.isWhitespace)

/-- The URL regex matches somewhere in the list. -/
def containsUrl : List Char → Bool
  | [] => false
  | c :: cs => urlMatchAt (c :: cs) || containsUrl cs

def isUpperAZ (c : Char) : Bool := decide ('A' ≤ c) && decide (c ≤ 'Z')

def isDigit09 (c : Char) : Bool := decide ('0' ≤ c) && decide (c ≤ '9')

/-- `validateMessage`: `!text` (empty string is falsy), length cap, blank
check, then the four spam patterns in order. -/
def validateMessage (text : String) : Bool :=
  if text.length = 0 then false
  else if text.length > MAX_MESSAGE_LENGTH then false
  else if (trimChars text.data).length = 0 then false
  else if hasSameCharRun 11 text.data then false
  else if containsUrl text.data then false
  else if hasClassRun isUpperAZ 10 text.data then false
  else if hasClassRun isDigit09 10 text.data then false
  else true

/-- The apostrophe character rejected by the username filter. -/
def apostropheChar : Char := Char.ofNat 39

/-- `validateUserName`: `!userName`, length cap, trimmed length, and the
character class of the regex `[<>\"'&]`. -/
def validateUserName (userName : String) : Bool :=
  if userName.length = 0 then false
  else if userName.length > MAX_USERNAME_LENGTH then false
  else if (trimChars userName.data).length < 2 then false
  else if userName.data.any
      (fun c => c = '<' ∨ c = '>' ∨ c = '"' ∨ c = apostropheChar ∨ c = '&') then false
  else true

/-- Characters admitted by the room-id filter (complement of `[^a-zA-Z0-9_-]`). -/
def isRoomChar (c : Char) : Bool :=
  (decide ('a' ≤ c) && decide (c ≤ 'z')) ||
  (decide ('A' ≤ c) && decide (c ≤ 'Z')) ||
  (decide ('0' ≤ c) && decide (c ≤ '9')) ||
  (c = '_' : Bool) || (c = '-' : Bool)

/-- The room-id validity check of the `join` and `leave` handlers:
`!roomId || roomId.length < 3 || roomId.length > 32 || /[^a-zA-Z0-9_-]/.test(roomId)`
rejects; this is the accepting predicate. -/
def validRoomId (roomId : String) : Bool :=
  !(decide (roomId.length = 0) || decide (roomId.length < 3) ||
    decide (roomId.length > 32) || roomId.data.any (fun c => !(isRoomChar c)))

/- Error messages and the guest fallback, verbatim from the source. -/

def ROOM_INVALID_MSG : String := "Недопустимый идентификатор комнаты"

def ROOM_LIMIT_MSG : String := "Превышен лимит присоединений к комнатам"

def SIGNAL_NOT_FOUND_MSG : String := "Пользователь не найден в вашей комнате"

def USERNAME_INVALID_MSG : String := "Недопустимое имя пользователя"

def USERNAME_TAKEN_MSG : String := "Имя пользователя уже занято в комнате"

def CHAT_INVALID_MSG : String := "Недопустимое сообщение"

def CHAT_LIMIT_MSG : String := "Превышен лимит сообщений"

def GUEST_NAME : String := "Гость"

/-- Outbound server-to-client events. -/
inductive SEvent where
  | peersList (peers : List String)
  | peerJoined (socketId : String)
  | peerLeft (socketId : String)
  | signal (src : String) (payload : String)
  | userNameSet (socketId : String) (userName : String)
  | chatMessage (author : String) (text : String) (timestamp : Int)
  | errorEvent (etype : String) (message : String)
deriving DecidableEq

/-- The wire payload of a `chat-message` event as sent by a client.  The
handler destructures only `text` and `timestamp`; the `author` field a
client may also send is never read. -/
structure ChatPayload where
  author : String
  text : String
  timestamp : Int
deriving DecidableEq

/-- Whole-server state: the three global maps, the per-connection
`currentRoomId` closure variable of each connection callback, and the
transport-level roster of currently-connected sockets. -/
@[ext]
structure ServerState where
  rooms : List (String × List String)
  names : List (String × String)
  activity : List (String × Activity)
  currentRoomOf : List (String × Option String)
  connected : List String
deriving DecidableEq

def initState : ServerState :=
  { rooms := [], names := [], activity := [], currentRoomOf := [], connected := [] }

/-- The `currentRoomId` closure variable of a connection. -/
def currentRoom (st : ServerState) (sid : String) : Option String :=
  (alistGet st.currentRoomOf sid).getD none

/-- The shared block `peers.delete(socket.id); socket.to(roomId).emit('peer-left', ...);
if (peers.size === 0) delete room` of the join / leave / disconnect handlers,
acting on the rooms map.  Recipients of the `peer-left` broadcast are the
members remaining after the deletion. -/
def removePeer (rooms : List (String × List String)) (sid roomId : String) :
    List (String × List String) × List (String × SEvent) :=
  match alistGet rooms roomId with
  | none => (rooms, [])
  | some peers =>
    let newPeers := setDelete sid peers
    let evs := newPeers.map (fun pid => (pid, SEvent.peerLeft sid))
    if newPeers = [] then (alistErase roomId rooms, evs)
    else (alistSet roomId newPeers rooms, evs)

/-- `io.on('connection')` prologue: `initializeUserActivity(socket.id)` plus
creation of the per-connection closure (with `currentRoomId = null`) and the
transport registering the socket. -/
def connectHandler (st : ServerState) (sid : String) (now : Nat) : ServerState :=
  { st with connected := st.connected ++ [sid],
            currentRoomOf := alistSet sid none st.currentRoomOf,
            activity := alistSet sid (initialActivity now) st.activity }

/-- `socket.on('join')`: validate the room id, apply the join rate limit,
leave the previous room if any, register membership, send the peers list to
the joiner and `peer-joined` to the existing members. -/
def joinHandler (st : ServerState) (sid roomId : String) (now : Nat) :
    ServerState × List (String × SEvent) :=
  if validRoomId roomId = false then
    (st, [(sid, SEvent.errorEvent "room" ROOM_INVALID_MSG)])
  else
    let rate := checkRoomJoinRate st.activity sid now
    if rate.1 = false then
      ({ st with activity := rate.2 }, [(sid, SEvent.errorEvent "room" ROOM_LIMIT_MSG)])
    else
      let pre := match currentRoom st sid with
        | none => (st.rooms, ([] : List (String × SEvent)))
        | some prev => removePeer st.rooms sid prev
      let peers := setAdd sid ((alistGet pre.1 roomId).getD [])
      let existingPeers := setDelete sid peers
      ({ st with rooms := alistSet roomId peers pre.1,
                 currentRoomOf := alistSet sid (some roomId) st.currentRoomOf,
                 activity := rate.2 },
       pre.2 ++ [(sid, SEvent.peersList existingPeers)]
            ++ existingPeers.map (fun pid => (pid, SEvent.peerJoined sid)))

/-- `socket.on('leave')`: validate the room id, remove membership (emitting
`peer-left` to the remaining members), null `currentRoomId` when it named this
room, and delete the sender's activity record. -/
def leaveHandler (st : ServerState) (sid roomId : String) :
    ServerState × List (String × SEvent) :=
  if validRoomId roomId = false then
    (st, [(sid, SEvent.errorEvent "room" ROOM_INVALID_MSG)])
  else
    let res := removePeer st.rooms sid roomId
    ({ st with rooms := res.1,
               currentRoomOf := if currentRoom st sid = some roomId
                 then alistSet sid none st.currentRoomOf else st.currentRoomOf,
               activity := alistErase sid st.activity }, res.2)

/-- `socket.on('disconnect')`: remove membership from the room named by
`currentRoomId` (which the handler never clears), then delete the display
name and the activity record. -/
def disconnectHandler (st : ServerState) (sid : String) :
    ServerState × List (String × SEvent) :=
  let res := match currentRoom st sid with
    | none => (st.rooms, ([] : List (String × SEvent)))
    | some r => removePeer st.rooms sid r
  ({ st with rooms := res.1,
             names := alistErase sid st.names,
             activity := alistErase sid st.activity }, res.2)

/-- The room-scan of the `signal` handler: the first room whose member set
contains both sockets. -/
def findCommonRoom (sid toId : String) : List (String × List String) → Option String
  | [] => none
  | (roomId, peers) :: rest =>
    if sid ∈ peers ∧ toId ∈ peers then some roomId
    else findCommonRoom sid toId rest

/-- `socket.on('signal')`: if `to` is truthy, forward `{from, data}` to `to`
when some room contains both sockets, otherwise send the sender an error of
type `signal`. -/
def signalHandler (st : ServerState) (sid toId payload : String) :
    ServerState × List (String × SEvent) :=
  if toId = "" then (st, [])
  else
    match findCommonRoom sid toId st.rooms with
    | none => (st, [(sid, SEvent.errorEvent "signal" SIGNAL_NOT_FOUND_MSG)])
    | some _ => (st, [(toId, SEvent.signal sid payload)])

/-- The uniqueness loop of the `set-user-name` handler: some peer other than
the sender already holds the name. -/
def nameTakenBy (names : List (String × String)) (sid userName : String) :
    List String → Bool
  | [] => false
  | pid :: ps =>
    if pid ≠ sid ∧ alistGet names pid = some userName then true
    else nameTakenBy names sid userName ps

/-- `socket.on('set-user-name')`: validate, check per-room uniqueness, store
the name, and notify the room (others first, then the sender's ack). -/
def setUserNameHandler (st : ServerState) (sid userName : String) :
    ServerState × List (String × SEvent) :=
  if validateUserName userName = false then
    (st, [(sid, SEvent.errorEvent "username" USERNAME_INVALID_MSG)])
  else
    let taken := match currentRoom st sid with
      | some r => nameTakenBy st.names sid userName ((alistGet st.rooms r).getD [])
      | none => false
    if taken then
      (st, [(sid, SEvent.errorEvent "username" USERNAME_TAKEN_MSG)])
    else
      let st1 := { st with names := alistSet sid userName st.names }
      match currentRoom st sid with
      | none => (st1, [])
      | some r =>
        let others := setDelete sid ((alistGet st.rooms r).getD [])
        (st1, others.map (fun pid => (pid, SEvent.userNameSet sid userName))
                ++ [(sid, SEvent.userNameSet sid userName)])

/-- `socket.on('chat-message')`: resolve the author server-side, validate the
text, apply the message rate limit, and broadcast to the sender's room. -/
def chatMessageHandler (st : ServerState) (sid : String) (p : ChatPayload) (now : Nat) :
    ServerState × List (String × SEvent) :=
  let author := (alistGet st.names sid).getD GUEST_NAME
  if validateMessage p.text = false then
    (st, [(sid, SEvent.errorEvent "chat" CHAT_INVALID_MSG)])
  else
    let rate := checkMessageRate st.activity sid now
    if rate.1 = false then
      ({ st with activity := rate.2 }, [(sid, SEvent.errorEvent "chat" CHAT_LIMIT_MSG)])
    else
      let st1 := { st with activity := rate.2 }
      match currentRoom st1 sid with
      | none => (st1, [])
      | some r =>
        (st1, (setDelete sid ((alistGet st1.rooms r).getD [])).map
            (fun pid => (pid, SEvent.chatMessage author p.text p.timestamp)))

/-- Inbound operations driving the server. -/
inductive Op where
  | connect (sid : String) (now : Nat)
  | join (sid roomId : String) (now : Nat)
  | leave (sid roomId : String)
  | disconnect (sid : String)
  | setUserName (sid userName : String)
  | chatMessage (sid : String) (p : ChatPayload) (now : Nat)
  | signal (sid toId payload : String)
deriving DecidableEq

/-- State after one operation.  A transport disconnect additionally removes
the socket from the connected roster (the handler itself never touches the
closure variable). -/
def stepState (st : ServerState) : Op → ServerState
  | .connect sid now => connectHandler st sid now
  | .join sid roomId now => (joinHandler st sid roomId now).1
  | .leave sid roomId => (leaveHandler st sid roomId).1
  | .disconnect sid =>
    let st1 := (disconnectHandler st sid).1
    { st1 with connected := setDelete sid st1.connected }
  | .setUserName sid userName => (setUserNameHandler st sid userName).1
  | .chatMessage sid p now => (chatMessageHandler st sid p now).1
  | .signal sid toId payload => (signalHandler st sid toId payload).1

/-- Transport-level side conditions: a fresh never-used id for connect
(session tokens are never reused), a connected socket for every other
event. -/
def stepOK (st : ServerState) : Op → Bool
  | .connect sid _ => (alistGet st.currentRoomOf sid).isNone
  | .join sid _ _ => decide (sid ∈ st.connected)
  | .leave sid _ => decide (sid ∈ st.connected)
  | .disconnect sid => decide (sid ∈ st.connected)
  | .setUserName sid _ => decide (sid ∈ st.connected)
  | .chatMessage sid _ _ => decide (sid ∈ st.connected)
  | .signal sid _ _ => decide (sid ∈ st.connected)

/-- States reachable from the empty initial state by valid operations. -/
inductive Reachable : ServerState → Prop where
  | init : Reachable initState
  | step (st : ServerState) (op : Op) :
      Reachable st → stepOK st op = true → Reachable (stepState st op)

/-- The invariant of claim C2 at the rooms-map level. -/
def noEmptyRoomL (rooms : List (String × List String)) : Prop :=
  ∀ p ∈ rooms, p.2 ≠ []

/-- No room entry has an empty member set. -/
def noEmptyRoom (st : ServerState) : Prop := noEmptyRoomL st.rooms

/-- Events of a list addressed to one recipient. -/
def eventsFor (pid : String) : List (String × SEvent) → List SEvent
  | [] => []
  | q :: qs => if q.1 = pid then q.2 :: eventsFor pid qs else eventsFor pid qs

/-- The weakened activity-record invariant of claim C7: every activity record
belongs to a currently-connected socket. -/
def activityKeysConnected (st : ServerState) : Prop :=
  ∀ id, (alistGet st.activity id).isSome = true → id ∈ st.connected

/-! Concrete states used by the claim-level witnesses and counterexamples. -/

/-- Socket a alone in room_1. -/
def stSolo : ServerState :=
  stepState (stepState initState (Op.connect "a" 0)) (Op.join "a" "room_1" 0)

/-- Sockets a and b connected, both members of room_1. -/
def stPair : ServerState :=
  stepState (stepState (stepState (stepState initState (Op.connect "a" 0))
    (Op.connect "b" 0)) (Op.join "a" "room_1" 0)) (Op.join "b" "room_1" 0)

/-- stPair after the disconnect handler ran once for a. -/
def stPairAfterDisc : ServerState := (disconnectHandler stPair "a").1

/-- Socket a connected, then an explicit leave of a room it never joined. -/
def stLeaveOnly : ServerState :=
  stepState (stepState initState (Op.connect "a" 0)) (Op.leave "a" "abc")

/-- a in roomA; b in roomB with display name Alice. -/
def stTwoRooms : ServerState :=
  stepState (stepState (stepState (stepState (stepState initState
    (Op.connect "a" 0)) (Op.connect "b" 0)) (Op.join "a" "roomA" 0))
    (Op.join "b" "roomB" 0)) (Op.setUserName "b" "Alice")

/-- a and b both in roomA, b holding display name Alice. -/
def stSameRoomNamed : ServerState :=
  stepState (stepState (stepState (stepState (stepState initState
    (Op.connect "a" 0)) (Op.connect "b" 0)) (Op.join "a" "roomA" 0))
    (Op.join "b" "roomA" 0)) (Op.setUserName "b" "Alice")

/-- a alone in room_1 with display name Alice. -/
def stNamedSolo : ServerState := stepState stSolo (Op.setUserName "a" "Alice")

/-! Basic lemmas about the map and set models. -/

theorem alistGet_set_self {β : Type} (k : String) (v : β) (l : List (String × β)) :
    alistGet (alistSet k v l) k = some v := by
  induction l with
  | nil => simp [alistSet, alistGet]
  | cons p ps ih =>
    by_cases h : p.1 = k
    · simp [alistSet, h, alistGet]
    · simp [alistSet, h, alistGet, ih]

theorem alistGet_set_ne {β : Type} (k k' : String) (v : β) (l : List (String × β))
    (h : k' ≠ k) : alistGet (alistSet k v l) k' = alistGet l k' := by
  have hk : k ≠ k' := Ne.symm h
  induction l with
  | nil => simp [alistSet, alistGet, hk]
  | cons p ps ih =>
    by_cases hp : p.1 = k
    · simp [alistSet, hp, alistGet, hk]
    · simp only [alistSet, if_neg hp, alistGet]
      by_cases hp' : p.1 = k'
      · simp [hp']
      · simp [hp', ih]

theorem alistGet_erase_self {β : Type} (k : String) (l : List (String × β)) :
    alistGet (alistErase k l) k = none := by
  induction l with
  | nil => simp [alistErase, alistGet]
  | cons p ps ih =>
    by_cases h : p.1 = k
    · simp [alistErase, h, ih]
    · simp [alistErase, h, alistGet, ih]

theorem alistGet_erase_ne {β : Type} (k k' : String) (l : List (String × β))
    (h : k' ≠ k) : alistGet (alistErase k l) k' = alistGet l k' := by
  induction l with
  | nil => simp [alistErase, alistGet]
  | cons p ps ih =>
    have hk : k ≠ k' := Ne.symm h
    by_cases hp : p.1 = k
    · simp [alistErase, hp, alistGet, hk, ih]
    · simp only [alistErase, if_neg hp, alistGet]
      by_cases hp' : p.1 = k'
      · simp [hp']
      · simp [hp', ih]

theorem alistErase_idem {β : Type} (k : String) (l : List (String × β)) :
    alistErase k (alistErase k l) = alistErase k l := by
  induction l with
  | nil => simp [alistErase]
  | cons p ps ih =>
    by_cases h : p.1 = k
    · simp [alistErase, h, ih]
    · simp [alistErase, h, ih]

theorem alistSet_set_same {β : Type} (k : String) (v : β) (l : List (String × β)) :
    alistSet k v (alistSet k v l) = alistSet k v l := by
  induction l with
  | nil => simp [alistSet]
  | cons p ps ih =>
    by_cases h : p.1 = k
    · simp [alistSet, h]
    · simp [alistSet, h, ih]

theorem mem_alistSet {β : Type} (k : String) (v : β) (l : List (String × β)) (p : String × β)
    (hp : p ∈ alistSet k v l) : p = (k, v) ∨ p ∈ l := by
  induction l with
  | nil => simp [alistSet] at hp; exact Or.inl hp
  | cons q qs ih =>
    by_cases h : q.1 = k
    · simp only [alistSet, if_pos h, List.mem_cons] at hp
      rcases hp with hp | hp
      · exact Or.inl hp
      · exact Or.inr (List.mem_cons_of_mem q hp)
    · simp only [alistSet, if_neg h, List.mem_cons] at hp
      rcases hp with hp | hp
      · exact Or.inr (hp ▸ List.mem_cons_self q qs)
      · rcases ih hp with h' | h'
        · exact Or.inl h'
        · exact Or.inr (List.mem_cons_of_mem q h')

theorem mem_alistErase {β : Type} (k : String) (l : List (String × β)) (p : String × β)
    (hp : p ∈ alistErase k l) : p ∈ l := by
  induction l with
  | nil => simp [alistErase] at hp
  | cons q qs ih =>
    by_cases h : q.1 = k
    · simp only [alistErase, if_pos h] at hp
      exact List.mem_cons_of_mem q (ih hp)
    · simp only [alistErase, if_neg h, List.mem_cons] at hp
      rcases hp with hp | hp
      · exact hp ▸ List.mem_cons_self q qs
      · exact List.mem_cons_of_mem q (ih hp)

theorem mem_setDelete (x y : String) (s : List String) :
    x ∈ setDelete y s ↔ x ∈ s ∧ x ≠ y := by
  induction s with
  | nil => simp [setDelete]
  | cons z zs ih =>
    by_cases h : z = y
    · simp only [setDelete, if_pos h, ih, List.mem_cons]
      constructor
      · rintro ⟨hx, hne⟩; exact ⟨Or.inr hx, hne⟩
      · rintro ⟨hx | hx, hne⟩
        · exact absurd (hx.trans h) hne
        · exact ⟨hx, hne⟩
    · simp only [setDelete, if_neg h, List.mem_cons, ih]
      constructor
      · rintro (hx | ⟨hx, hne⟩)
        · exact ⟨Or.inl hx, hx ▸ h⟩
        · exact ⟨Or.inr hx, hne⟩
      · rintro ⟨hx | hx, hne⟩
        · exact Or.inl hx
        · exact Or.inr ⟨hx, hne⟩

theorem setDelete_eq_self_of_not_mem (x : String) (s : List String) (h : x ∉ s) :
    setDelete x s = s := by
  induction s with
  | nil => rfl
  | cons z zs ih =>
    have hz : z ≠ x := fun e => h (e ▸ List.mem_cons_self z zs)
    have hzs : x ∉ zs := fun e => h (List.mem_cons_of_mem z e)
    simp [setDelete, hz, ih hzs]

theorem not_mem_setDelete_self (x : String) (s : List String) : x ∉ setDelete x s :=
  fun h => ((mem_setDelete x x s).mp h).2 rfl

theorem setDelete_idem (x : String) (s : List String) :
    setDelete x (setDelete x s) = setDelete x s :=
  setDelete_eq_self_of_not_mem x _ (not_mem_setDelete_self x s)

theorem setAdd_ne_nil (x : String) (s : List String) : setAdd x s ≠ [] := by
  unfold setAdd
  by_cases h : x ∈ s
  · simp only [if_pos h]
    intro e
    exact (List.not_mem_nil x) (e ▸ h)
  · simp [if_neg h]

theorem nodup_setDelete (x : String) (s : List String) (h : s.Nodup) :
    (setDelete x s).Nodup := by
  induction s with
  | nil => exact List.nodup_nil
  | cons z zs ih =>
    rcases List.nodup_cons.mp h with ⟨hz, hzs⟩
    by_cases hzx : z = x
    · simpa [setDelete, hzx] using ih hzs
    · simp only [setDelete, if_neg hzx]
      refine List.nodup_cons.mpr ⟨?_, ih hzs⟩
      intro hmem
      exact hz ((mem_setDelete z x zs).mp hmem).1

theorem eventsFor_map_not_mem (pid : String) (e : SEvent) (l : List String)
    (h : pid ∉ l) : eventsFor pid (l.map (fun q => (q, e))) = [] := by
  induction l with
  | nil => rfl
  | cons z zs ih =>
    have hz : z ≠ pid := fun hq => h (hq ▸ List.mem_cons_self z zs)
    have hzs : pid ∉ zs := fun hq => h (List.mem_cons_of_mem z hq)
    simp [eventsFor, hz, ih hzs]

theorem eventsFor_map_self (pid : String) (e : SEvent) (l : List String)
    (hnd : l.Nodup) (hm : pid ∈ l) :
    eventsFor pid (l.map (fun q => (q, e))) = [e] := by
  induction l with
  | nil => simp at hm
  | cons z zs ih =>
    rcases List.nodup_cons.mp hnd with ⟨hz, hzs⟩
    rcases List.mem_cons.mp hm with hm' | hm'
    · subst hm'
      simp [eventsFor, eventsFor_map_not_mem pid e zs hz]
    · have hne : z ≠ pid := fun e' => hz (e' ▸ hm')
      simp [eventsFor, hne, ih hzs hm']

/-! Characterizations of the handler search loops. -/

theorem nameTakenBy_iff (names : List (String × String)) (sid userName : String)
    (l : List String) :
    nameTakenBy names sid userName l = true ↔
      ∃ pid ∈ l, pid ≠ sid ∧ alistGet names pid = some userName := by
  induction l with
  | nil => simp [nameTakenBy]
  | cons z zs ih =>
    by_cases h : z ≠ sid ∧ alistGet names z = some userName
    · simp only [nameTakenBy, if_pos h, true_iff]
      exact ⟨z, List.mem_cons_self z zs, h⟩
    · simp only [nameTakenBy, if_neg h, ih]
      constructor
      · rintro ⟨pid, hmem, hp⟩
        exact ⟨pid, List.mem_cons_of_mem z hmem, hp⟩
      · rintro ⟨pid, hmem, hp⟩
        rcases List.mem_cons.mp hmem with hmem' | hmem'
        · exact absurd (hmem' ▸ hp) h
        · exact ⟨pid, hmem', hp⟩

theorem findCommonRoom_eq_none_iff (a b : String) (l : List (String × List String)) :
    findCommonRoom a b l = none ↔ ¬ ∃ p ∈ l, a ∈ p.2 ∧ b ∈ p.2 := by
  induction l with
  | nil => simp [findCommonRoom]
  | cons q qs ih =>
    by_cases h : a ∈ q.2 ∧ b ∈ q.2
    · simp only [findCommonRoom]
      rw [if_pos h]
      exact iff_of_false (by simp) (fun hno => hno ⟨q, List.mem_cons_self q qs, h⟩)
    · simp only [findCommonRoom]
      rw [if_neg h]
      rw [ih]
      constructor
      · rintro hno ⟨p, hmem, hp⟩
        rcases List.mem_cons.mp hmem with hmem' | hmem'
        · exact h (hmem' ▸ hp)
        · exact hno ⟨p, hmem', hp⟩
      · rintro hno ⟨p, hmem, hp⟩
        exact hno ⟨p, List.mem_cons_of_mem q hmem, hp⟩

theorem findCommonRoom_isSome_of_mem (a b : String) (l : List (String × List String))
    (h : ∃ p ∈ l, a ∈ p.2 ∧ b ∈ p.2) : (findCommonRoom a b l).isSome = true := by
  cases hf : findCommonRoom a b l with
  | none => exact absurd h ((findCommonRoom_eq_none_iff a b l).mp hf)
  | some r => rfl

/-! Frame lemmas for the rate limiters. -/

theorem checkMessageRate_of_none (act : List (String × Activity)) (sid : String) (now : Nat)
    (h : alistGet act sid = none) : checkMessageRate act sid now = (true, act) := by
  unfold checkMessageRate
  rw [h]

theorem checkRoomJoinRate_of_none (act : List (String × Activity)) (sid : String) (now : Nat)
    (h : alistGet act sid = none) : checkRoomJoinRate act sid now = (true, act) := by
  unfold checkRoomJoinRate
  rw [h]

theorem checkMessageRate_get_ne (act : List (String × Activity)) (sid sid' : String)
    (now : Nat) (h : sid ≠ sid') :
    alistGet (checkMessageRate act sid' now).2 sid = alistGet act sid := by
  unfold checkMessageRate
  cases ha : alistGet act sid' with
  | none => rfl
  | some a =>
    simp only
    split
    · rfl
    · split
      · simp [MAX_MESSAGES_PER_MINUTE, alistGet_set_ne _ _ _ _ h]
      · split <;> simp [alistGet_set_ne _ _ _ _ h]

theorem checkRoomJoinRate_get_ne (act : List (String × Activity)) (sid sid' : String)
    (now : Nat) (h : sid ≠ sid') :
    alistGet (checkRoomJoinRate act sid' now).2 sid = alistGet act sid := by
  unfold checkRoomJoinRate
  cases ha : alistGet act sid' with
  | none => rfl
  | some a =>
    simp only
    split
    · simp [MAX_ROOMS_PER_HOUR, alistGet_set_ne _ _ _ _ h]
    · split <;> simp [alistGet_set_ne _ _ _ _ h]

theorem checkMessageRate_isSome_sub (act : List (String × Activity)) (sid' id : String)
    (now : Nat) (h : (alistGet (checkMessageRate act sid' now).2 id).isSome = true) :
    (alistGet act id).isSome = true := by
  by_cases hid : id = sid'
  · subst hid
    cases ha : alistGet act id with
    | none => rw [checkMessageRate_of_none act id now ha] at h; simp [ha] at h
    | some a => rfl
  · rwa [checkMessageRate_get_ne act id sid' now hid] at h

theorem checkRoomJoinRate_isSome_sub (act : List (String × Activity)) (sid' id : String)
    (now : Nat) (h : (alistGet (checkRoomJoinRate act sid' now).2 id).isSome = true) :
    (alistGet act id).isSome = true := by
  by_cases hid : id = sid'
  · subst hid
    cases ha : alistGet act id with
    | none => rw [checkRoomJoinRate_of_none act id now ha] at h; simp [ha] at h
    | some a => rfl
  · rwa [checkRoomJoinRate_get_ne act id sid' now hid] at h

/-! Frame lemmas for the handlers. -/

theorem signalHandler_state (st : ServerState) (sid toId payload : String) :
    (signalHandler st sid toId payload).1 = st := by
  unfold signalHandler
  split
  · rfl
  · split <;> rfl

theorem setUserNameHandler_rooms (st : ServerState) (sid userName : String) :
    ((setUserNameHandler st sid userName).1).rooms = st.rooms := by
  simp only [setUserNameHandler]
  split
  · rfl
  · split
    · rfl
    · split <;> rfl

theorem setUserNameHandler_activity (st : ServerState) (sid userName : String) :
    ((setUserNameHandler st sid userName).1).activity = st.activity := by
  simp only [setUserNameHandler]
  split
  · rfl
  · split
    · rfl
    · split <;> rfl

theorem setUserNameHandler_connected (st : ServerState) (sid userName : String) :
    ((setUserNameHandler st sid userName).1).connected = st.connected := by
  simp only [setUserNameHandler]
  split
  · rfl
  · split
    · rfl
    · split <;> rfl

theorem chatMessageHandler_rooms (st : ServerState) (sid : String) (p : ChatPayload)
    (now : Nat) : ((chatMessageHandler st sid p now).1).rooms = st.rooms := by
  simp only [chatMessageHandler]
  split
  · rfl
  · split
    · rfl
    · split <;> rfl

theorem chatMessageHandler_names (st : ServerState) (sid : String) (p : ChatPayload)
    (now : Nat) : ((chatMessageHandler st sid p now).1).names = st.names := by
  simp only [chatMessageHandler]
  split
  · rfl
  · split
    · rfl
    · split <;> rfl

theorem chatMessageHandler_connected (st : ServerState) (sid : String) (p : ChatPayload)
    (now : Nat) : ((chatMessageHandler st sid p now).1).connected = st.connected := by
  simp only [chatMessageHandler]
  split
  · rfl
  · split
    · rfl
    · split <;> rfl

theorem chatMessageHandler_activity (st : ServerState) (sid : String) (p : ChatPayload)
    (now : Nat) :
    ((chatMessageHandler st sid p now).1).activity
      = if validateMessage p.text = false then st.activity
        else (checkMessageRate st.activity sid now).2 := by
  by_cases hv : validateMessage p.text = false
  · simp only [chatMessageHandler, if_pos hv]
  · simp only [chatMessageHandler, if_neg hv]
    split
    · rfl
    · split <;> rfl

theorem joinHandler_names (st : ServerState) (sid roomId : String) (now : Nat) :
    ((joinHandler st sid roomId now).1).names = st.names := by
  simp only [joinHandler]
  split
  · rfl
  · split <;> rfl

theorem joinHandler_connected (st : ServerState) (sid roomId : String) (now : Nat) :
    ((joinHandler st sid roomId now).1).connected = st.connected := by
  simp only [joinHandler]
  split
  · rfl
  · split <;> rfl

theorem joinHandler_activity (st : ServerState) (sid roomId : String) (now : Nat) :
    ((joinHandler st sid roomId now).1).activity
      = if validRoomId roomId = false then st.activity
        else (checkRoomJoinRate st.activity sid now).2 := by
  by_cases hv : validRoomId roomId = false
  · simp only [joinHandler, if_pos hv]
  · simp only [joinHandler, if_neg hv]
    split <;> rfl

theorem leaveHandler_names (st : ServerState) (sid roomId : String) :
    ((leaveHandler st sid roomId).1).names = st.names := by
  simp only [leaveHandler]
  split <;> rfl

theorem leaveHandler_connected (st : ServerState) (sid roomId : String) :
    ((leaveHandler st sid roomId).1).connected = st.connected := by
  simp only [leaveHandler]
  split <;> rfl

theorem leaveHandler_rooms (st : ServerState) (sid roomId : String) :
    ((leaveHandler st sid roomId).1).rooms
      = if validRoomId roomId = false then st.rooms
        else (removePeer st.rooms sid roomId).1 := by
  by_cases hv : validRoomId roomId = false
  · simp only [leaveHandler, if_pos hv]
  · simp only [leaveHandler, if_neg hv]

theorem leaveHandler_activity (st : ServerState) (sid roomId : String) :
    ((leaveHandler st sid roomId).1).activity
      = if validRoomId roomId = false then st.activity
        else alistErase sid st.activity := by
  by_cases hv : validRoomId roomId = false
  · simp only [leaveHandler, if_pos hv]
  · simp only [leaveHandler, if_neg hv]

/-! Preservation of the no-empty-room invariant (claim C2). -/

theorem noEmptyRoomL_alistSet (k : String) (v : List String)
    (l : List (String × List String)) (h : noEmptyRoomL l) (hv : v ≠ []) :
    noEmptyRoomL (alistSet k v l) := by
  intro p hp
  rcases mem_alistSet k v l p hp with he | hm
  · cases he; exact hv
  · exact h p hm

theorem noEmptyRoomL_erase (k : String) (l : List (String × List String))
    (h : noEmptyRoomL l) : noEmptyRoomL (alistErase k l) :=
  fun p hp => h p (mem_alistErase k l p hp)

theorem noEmptyRoomL_removePeer (rooms : List (String × List String)) (sid roomId : String)
    (h : noEmptyRoomL rooms) : noEmptyRoomL (removePeer rooms sid roomId).1 := by
  unfold removePeer
  cases hr : alistGet rooms roomId with
  | none => exact h
  | some peers =>
    simp only
    split
    · exact noEmptyRoomL_erase _ _ h
    · exact noEmptyRoomL_alistSet _ _ _ h (by assumption)

theorem stepState_noEmptyRoom (st : ServerState) (op : Op) (h : noEmptyRoom st) :
    noEmptyRoom (stepState st op) := by
  cases op with
  | connect sid now => exact h
  | join sid roomId now =>
    show noEmptyRoomL ((joinHandler st sid roomId now).1).rooms
    simp only [joinHandler]
    split
    · exact h
    · split
      · exact h
      · apply noEmptyRoomL_alistSet
        · split
          · exact h
          · exact noEmptyRoomL_removePeer _ _ _ h
        · exact setAdd_ne_nil _ _
  | leave sid roomId =>
    show noEmptyRoomL ((leaveHandler st sid roomId).1).rooms
    rw [leaveHandler_rooms]
    split
    · exact h
    · exact noEmptyRoomL_removePeer _ _ _ h
  | disconnect sid =>
    show noEmptyRoomL ((disconnectHandler st sid).1).rooms
    cases hc : currentRoom st sid with
    | none => simp only [disconnectHandler, hc]; exact h
    | some r => simp only [disconnectHandler, hc]; exact noEmptyRoomL_removePeer _ _ _ h
  | setUserName sid userName =>
    show noEmptyRoomL ((setUserNameHandler st sid userName).1).rooms
    rw [setUserNameHandler_rooms]
    exact h
  | chatMessage sid p now =>
    show noEmptyRoomL ((chatMessageHandler st sid p now).1).rooms
    rw [chatMessageHandler_rooms]
    exact h
  | signal sid toId payload =>
    show noEmptyRoomL ((signalHandler st sid toId payload).1).rooms
    rw [signalHandler_state]
    exact h

/-! Preservation of the weakened activity-record invariant (claim C7). -/

theorem stepState_activityKeysConnected (st : ServerState) (op : Op)
    (h : activityKeysConnected st) : activityKeysConnected (stepState st op) := by
  cases op with
  | connect sid now =>
    intro id hid
    show id ∈ st.connected ++ [sid]
    by_cases he : id = sid
    · subst he
      exact List.mem_append_right _ (List.mem_singleton.mpr rfl)
    · have hid' : (alistGet st.activity id).isSome = true := by
        have : alistGet (alistSet sid (initialActivity now) st.activity) id
            = alistGet st.activity id := alistGet_set_ne _ _ _ _ he
        rwa [show (stepState st (Op.connect sid now)).activity
            = alistSet sid (initialActivity now) st.activity from rfl, this] at hid
      exact List.mem_append_left _ (h id hid')
  | join sid roomId now =>
    intro id hid
    rw [show (stepState st (Op.join sid roomId now)).connected
        = ((joinHandler st sid roomId now).1).connected from rfl,
      joinHandler_connected]
    apply h id
    rw [show (stepState st (Op.join sid roomId now)).activity
        = ((joinHandler st sid roomId now).1).activity from rfl,
      joinHandler_activity] at hid
    by_cases hv : validRoomId roomId = false
    · rwa [if_pos hv] at hid
    · rw [if_neg hv] at hid
      exact checkRoomJoinRate_isSome_sub _ _ _ _ hid
  | leave sid roomId =>
    intro id hid
    rw [show (stepState st (Op.leave sid roomId)).connected
        = ((leaveHandler st sid roomId).1).connected from rfl,
      leaveHandler_connected]
    apply h id
    rw [show (stepState st (Op.leave sid roomId)).activity
        = ((leaveHandler st sid roomId).1).activity from rfl,
      leaveHandler_activity] at hid
    by_cases hv : validRoomId roomId = false
    · rwa [if_pos hv] at hid
    · rw [if_neg hv] at hid
      by_cases he : id = sid
      · subst he
        rw [alistGet_erase_self] at hid
        simp at hid
      · rwa [alistGet_erase_ne _ _ _ he] at hid
  | disconnect sid =>
    intro id hid
    have hid' : (alistGet (alistErase sid st.activity) id).isSome = true := hid
    by_cases he : id = sid
    · subst he
      rw [alistGet_erase_self] at hid'
      simp at hid'
    · rw [alistGet_erase_ne _ _ _ he] at hid'
      show id ∈ setDelete sid ((disconnectHandler st sid).1).connected
      exact (mem_setDelete id sid _).mpr ⟨h id hid', he⟩
  | setUserName sid userName =>
    intro id hid
    rw [show (stepState st (Op.setUserName sid userName)).connected
        = ((setUserNameHandler st sid userName).1).connected from rfl,
      setUserNameHandler_connected]
    apply h id
    rwa [show (stepState st (Op.setUserName sid userName)).activity
        = ((setUserNameHandler st sid userName).1).activity from rfl,
      setUserNameHandler_activity] at hid
  | chatMessage sid p now =>
    intro id hid
    rw [show (stepState st (Op.chatMessage sid p now)).connected
        = ((chatMessageHandler st sid p now).1).connected from rfl,
      chatMessageHandler_connected]
    apply h id
    rw [show (stepState st (Op.chatMessage sid p now)).activity
        = ((chatMessageHandler st sid p now).1).activity from rfl,
      chatMessageHandler_activity] at hid
    by_cases hv : validateMessage p.text = false
    · rwa [if_pos hv] at hid
    · rw [if_neg hv] at hid
      exact checkMessageRate_isSome_sub _ _ _ _ hid
  | signal sid toId payload =>
    intro id hid
    rw [show stepState st (Op.signal sid toId payload)
        = (signalHandler st sid toId payload).1 from rfl, signalHandler_state] at hid ⊢
    exact h id hid

theorem reachable_noEmptyRoom (st : ServerState) (h : Reachable st) : noEmptyRoom st := by
  induction h with
  | init =>
    intro p hp
    exact absurd hp (List.not_mem_nil p)
  | step st op hr hok ih => exact stepState_noEmptyRoom st op ih

theorem reachable_activityKeysConnected (st : ServerState) (h : Reachable st) :
    activityKeysConnected st := by
  induction h with
  | init =>
    intro id hid
    simp [initState, alistGet] at hid
  | step st op hr hok ih => exact stepState_activityKeysConnected st op ih

/-! Lemmas about the disconnect handler (claim C6). -/

theorem disconnectHandler_names (st : ServerState) (sid : String) :
    ((disconnectHandler st sid).1).names = alistErase sid st.names := rfl

theorem disconnectHandler_activity (st : ServerState) (sid : String) :
    ((disconnectHandler st sid).1).activity = alistErase sid st.activity := rfl

theorem disconnectHandler_currentRoomOf (st : ServerState) (sid : String) :
    ((disconnectHandler st sid).1).currentRoomOf = st.currentRoomOf := rfl

theorem disconnectHandler_connected (st : ServerState) (sid : String) :
    ((disconnectHandler st sid).1).connected = st.connected := rfl

theorem disconnectHandler_rooms (st : ServerState) (sid : String) :
    ((disconnectHandler st sid).1).rooms
      = (match currentRoom st sid with
         | none => st.rooms
         | some r => (removePeer st.rooms sid r).1) := by
  cases hc : currentRoom st sid <;> simp only [disconnectHandler, hc]

theorem disconnectHandler_events (st : ServerState) (sid : String) :
    (disconnectHandler st sid).2
      = (match currentRoom st sid with
         | none => ([] : List (String × SEvent))
         | some r => (removePeer st.rooms sid r).2) := by
  cases hc : currentRoom st sid <;> simp only [disconnectHandler, hc]

theorem removePeer_snd (rooms : List (String × List String)) (sid roomId : String)
    (peers : List String) (h : alistGet rooms roomId = some peers) :
    (removePeer rooms sid roomId).2
      = (setDelete sid peers).map (fun pid => (pid, SEvent.peerLeft sid)) := by
  unfold removePeer
  rw [h]
  simp only
  split <;> rfl

theorem removePeer_fst (rooms : List (String × List String)) (sid roomId : String)
    (peers : List String) (h : alistGet rooms roomId = some peers) :
    (removePeer rooms sid roomId).1
      = (if setDelete sid peers = [] then alistErase roomId rooms
         else alistSet roomId (setDelete sid peers) rooms) := by
  unfold removePeer
  rw [h]
  simp only
  split <;> rfl

theorem removePeer_fst_none (rooms : List (String × List String)) (sid roomId : String)
    (h : alistGet rooms roomId = none) : (removePeer rooms sid roomId).1 = rooms := by
  unfold removePeer
  rw [h]

/-- Applying the disconnect handler a second time never changes the state: the
membership deletion, the room-entry garbage collection and the map erasures
are all idempotent. -/
theorem disconnectHandler_state_idem (st : ServerState) (sid : String) :
    (disconnectHandler (disconnectHandler st sid).1 sid).1 = (disconnectHandler st sid).1 := by
  refine ServerState.ext ?_ ?_ ?_ rfl rfl
  · -- rooms
    rw [disconnectHandler_rooms ((disconnectHandler st sid).1) sid]
    rw [show currentRoom ((disconnectHandler st sid).1) sid = currentRoom st sid from rfl]
    cases hc : currentRoom st sid with
    | none => rfl
    | some r =>
      simp only
      have h1 : ((disconnectHandler st sid).1).rooms
          = (removePeer st.rooms sid r).1 := by
        rw [disconnectHandler_rooms, hc]
      cases hroom : alistGet st.rooms r with
      | none =>
        rw [h1, removePeer_fst_none _ _ _ hroom]
        exact removePeer_fst_none _ _ _ hroom
      | some peers =>
        rw [h1, removePeer_fst _ _ _ _ hroom]
        by_cases hsd : setDelete sid peers = []
        · rw [if_pos hsd]
          exact removePeer_fst_none _ _ _ (alistGet_erase_self r st.rooms)
        · rw [if_neg hsd]
          have hget : alistGet (alistSet r (setDelete sid peers) st.rooms) r
              = some (setDelete sid peers) := alistGet_set_self _ _ _
          rw [removePeer_fst _ _ _ _ hget, setDelete_idem, if_neg hsd,
            alistSet_set_same]
  · -- names
    rw [disconnectHandler_names, disconnectHandler_names, alistErase_idem]
  · -- activity
    rw [disconnectHandler_activity, disconnectHandler_activity, alistErase_idem]

/-! Claim-level theorems. -/

/-- C2: starting from any reachable state, after every join, leave, or
disconnect operation (indeed after every operation) the room directory
contains no entry whose member set is empty — an operation that removes a
room's last member deletes the entry within that same operation. -/
theorem c2_no_empty_rooms (st : ServerState) (h : Reachable st) : noEmptyRoom st :=
  reachable_noEmptyRoom st h

theorem c2_no_empty_rooms_witness : noEmptyRoom stSolo :=
  c2_no_empty_rooms stSolo
    (Reachable.step _ _ (Reachable.step _ _ Reachable.init (by decide)) (by decide))

/-- C7 counterexample: the reachable state obtained by connecting socket a and
letting it send a valid `leave` for a room it never joined still has a
connected, yet its activity record has been deleted — refuting the claimed
invariant that an activity record exists for an identifier iff it belongs to a
currently-connected connection. -/
theorem c7_counterexample :
    Reachable stLeaveOnly ∧ "a" ∈ stLeaveOnly.connected
      ∧ alistGet stLeaveOnly.activity "a" = none :=
  ⟨Reachable.step _ _ (Reachable.step _ _ Reachable.init (by decide)) (by decide),
   by decide, by decide⟩

/-- C7 amended: in every reachable state an activity record exists only for
currently-connected identifiers (no stale records survive a disconnect), and
every operation preserves this; the converse direction fails because an
explicit leave deletes the sender's record while it stays connected. -/
theorem c7_record_implies_connected (st : ServerState) (id : String)
    (h : Reachable st) (ha : (alistGet st.activity id).isSome = true) :
    id ∈ st.connected :=
  reachable_activityKeysConnected st h id ha

theorem c7_record_implies_connected_witness :
    "a" ∈ (stepState initState (Op.connect "a" 0)).connected :=
  c7_record_implies_connected (stepState initState (Op.connect "a" 0)) "a"
    (Reachable.step _ _ Reachable.init (by decide)) (by decide)

/-- C9 counterexample: socket a, alone in room_1 with display name Alice,
sends an explicit `leave` for room_1; the membership is removed and the empty
room is deleted, but the display-name entry is still present — refuting the
claim that leave removes the display-name entry as disconnect does. -/
theorem c9_counterexample :
    alistGet ((leaveHandler stNamedSolo "a" "room_1").1).names "a" = some "Alice"
      ∧ alistGet ((leaveHandler stNamedSolo "a" "room_1").1).rooms "room_1" = none :=
  ⟨by decide, by decide⟩

/-- C9 amended: an explicit leave never touches the display-name registry (it
deletes the activity record instead); the display-name entry is removed only
by the disconnect handler. -/
theorem c9_leave_keeps_name (st : ServerState) (sid roomId : String) :
    ((leaveHandler st sid roomId).1).names = st.names
      ∧ alistGet ((disconnectHandler st sid).1).names sid = none :=
  ⟨leaveHandler_names st sid roomId, alistGet_erase_self sid st.names⟩

/-- C3 (code bug): the spacing check of the message-rate limiter never
measures the time since the last accepted message, because `lastActivity` is
stamped only at connect time — `updateUserActivity` is defined but never
called, and `checkMessageRate` does not stamp it on accept.  On the failing
trace, socket a connects at t = 0, both members of room_1; a chat at t = 2000
is accepted, and a second chat at t = 2100 — 100 ms after the accepted
message, far below the 1000 ms minimum spacing — is accepted and broadcast as
well, with `lastActivity` still holding the connect time 0. -/
theorem c3_spacing_never_enforced :
    (checkMessageRate (connectHandler initState "a" 0).activity "a" 2000).1 = true
  ∧ (checkMessageRate
        (checkMessageRate (connectHandler initState "a" 0).activity "a" 2000).2
        "a" 2100).1 = true
  ∧ (alistGet (checkMessageRate (connectHandler initState "a" 0).activity "a" 2000).2
        "a").map Activity.lastActivity = some 0
  ∧ (chatMessageHandler stPair "a" ⟨"", "hi there", 2000⟩ 2000).2
      = [("b", SEvent.chatMessage GUEST_NAME "hi there" 2000)]
  ∧ (chatMessageHandler (chatMessageHandler stPair "a" ⟨"", "hi there", 2000⟩ 2000).1
        "a" ⟨"", "hi again", 2100⟩ 2100).2
      = [("b", SEvent.chatMessage GUEST_NAME "hi again" 2100)] :=
  ⟨by decide, by decide, by decide, by decide, by decide⟩

/-- C10: for an identifier with no activity record both rate checks accept
unconditionally and leave the map unchanged, and no operation other than a
connect of that same identifier ever creates an activity record — so a
still-connected socket whose record was deleted stays exempt from rate
limiting for every subsequent chat message and join. -/
theorem c10_no_record_no_limits (st : ServerState) (sid : String) (now : Nat) (op : Op)
    (h : alistGet st.activity sid = none)
    (hop : ∀ n, op ≠ Op.connect sid n) :
    checkMessageRate st.activity sid now = (true, st.activity)
  ∧ checkRoomJoinRate st.activity sid now = (true, st.activity)
  ∧ alistGet (stepState st op).activity sid = none := by
  refine ⟨checkMessageRate_of_none _ _ _ h, checkRoomJoinRate_of_none _ _ _ h, ?_⟩
  cases op with
  | connect sid' now' =>
    have hne : sid ≠ sid' := by
      intro he
      subst he
      exact hop now' rfl
    show alistGet (alistSet sid' (initialActivity now') st.activity) sid = none
    rw [alistGet_set_ne _ _ _ _ hne]
    exact h
  | join sid' roomId now' =>
    show alistGet ((joinHandler st sid' roomId now').1).activity sid = none
    rw [joinHandler_activity]
    split
    · exact h
    · by_cases he : sid = sid'
      · subst he
        rw [checkRoomJoinRate_of_none _ _ _ h]
        exact h
      · rw [checkRoomJoinRate_get_ne _ _ _ _ he]
        exact h
  | leave sid' roomId =>
    show alistGet ((leaveHandler st sid' roomId).1).activity sid = none
    rw [leaveHandler_activity]
    split
    · exact h
    · by_cases he : sid = sid'
      · subst he
        exact alistGet_erase_self _ _
      · rw [alistGet_erase_ne _ _ _ he]
        exact h
  | disconnect sid' =>
    show alistGet (alistErase sid' st.activity) sid = none
    by_cases he : sid = sid'
    · subst he
      exact alistGet_erase_self _ _
    · rw [alistGet_erase_ne _ _ _ he]
      exact h
  | setUserName sid' userName =>
    show alistGet ((setUserNameHandler st sid' userName).1).activity sid = none
    rw [setUserNameHandler_activity]
    exact h
  | chatMessage sid' p now' =>
    show alistGet ((chatMessageHandler st sid' p now').1).activity sid = none
    rw [chatMessageHandler_activity]
    split
    · exact h
    · by_cases he : sid = sid'
      · subst he
        rw [checkMessageRate_of_none _ _ _ h]
        exact h
      · rw [checkMessageRate_get_ne _ _ _ _ he]
        exact h
  | signal sid' toId payload =>
    show alistGet ((signalHandler st sid' toId payload).1).activity sid = none
    rw [signalHandler_state]
    exact h

theorem c10_no_record_no_limits_witness :
    checkMessageRate stLeaveOnly.activity "a" 5000 = (true, stLeaveOnly.activity)
  ∧ checkRoomJoinRate stLeaveOnly.activity "a" 5000 = (true, stLeaveOnly.activity)
  ∧ alistGet (stepState stLeaveOnly
        (Op.chatMessage "a" ⟨"", "hi there", 5000⟩ 5000)).activity "a" = none :=
  c10_no_record_no_limits stLeaveOnly "a" 5000
    (Op.chatMessage "a" ⟨"", "hi there", 5000⟩ 5000) (by decide) (fun n hc => nomatch hc)

/-- C1: for a truthy target id, a signal event leaves the state unchanged and
the payload is forwarded to the target as a `signal` event carrying the
sender's id exactly when some room's member set contains both sockets;
otherwise the sender gets an `error` of type `signal` and the target receives
nothing. -/
theorem c1_signal_same_room (st : ServerState) (sid toId payload : String)
    (hto : toId ≠ "") (hne : sid ≠ toId) :
    (signalHandler st sid toId payload).1 = st
  ∧ ((∃ p ∈ st.rooms, sid ∈ p.2 ∧ toId ∈ p.2) →
      (signalHandler st sid toId payload).2 = [(toId, SEvent.signal sid payload)])
  ∧ (¬ (∃ p ∈ st.rooms, sid ∈ p.2 ∧ toId ∈ p.2) →
      (signalHandler st sid toId payload).2
          = [(sid, SEvent.errorEvent "signal" SIGNAL_NOT_FOUND_MSG)]
        ∧ eventsFor toId (signalHandler st sid toId payload).2 = []) := by
  refine ⟨signalHandler_state st sid toId payload, ?_, ?_⟩
  · intro hex
    have hsome := findCommonRoom_isSome_of_mem sid toId st.rooms hex
    cases hf : findCommonRoom sid toId st.rooms with
    | none =>
      rw [hf] at hsome
      simp at hsome
    | some r =>
      unfold signalHandler
      rw [if_neg hto, hf]
  · intro hnex
    have hnone : findCommonRoom sid toId st.rooms = none :=
      (findCommonRoom_eq_none_iff sid toId st.rooms).mpr hnex
    have hres : (signalHandler st sid toId payload).2
        = [(sid, SEvent.errorEvent "signal" SIGNAL_NOT_FOUND_MSG)] := by
      unfold signalHandler
      rw [if_neg hto, hnone]
    refine ⟨hres, ?_⟩
    rw [hres]
    simp [eventsFor, hne]

theorem c1_signal_same_room_witness :
    (signalHandler stPair "a" "b" "sdp-offer").1 = stPair
  ∧ ((∃ p ∈ stPair.rooms, "a" ∈ p.2 ∧ "b" ∈ p.2) →
      (signalHandler stPair "a" "b" "sdp-offer").2 = [("b", SEvent.signal "a" "sdp-offer")])
  ∧ (¬ (∃ p ∈ stPair.rooms, "a" ∈ p.2 ∧ "b" ∈ p.2) →
      (signalHandler stPair "a" "b" "sdp-offer").2
          = [("a", SEvent.errorEvent "signal" SIGNAL_NOT_FOUND_MSG)]
        ∧ eventsFor "b" (signalHandler stPair "a" "b" "sdp-offer").2 = []) :=
  c1_signal_same_room stPair "a" "b" "sdp-offer" (by decide) (by decide)

/-- C8: an invalid room id (empty, shorter than 3, longer than 32, or with a
character outside letters, digits, hyphen, underscore) makes the join handler
reject with an `error` of type `room` and change nothing, so a join is
accepted only for valid ids; in particular `ab` is rejected while `room_1` is
accepted and registers membership. -/
theorem c8_room_id_validation (st : ServerState) (sid roomId : String) (now : Nat)
    (h : validRoomId roomId = false) :
    joinHandler st sid roomId now
        = (st, [(sid, SEvent.errorEvent "room" ROOM_INVALID_MSG)])
  ∧ validRoomId "ab" = false
  ∧ validRoomId "room_1" = true
  ∧ alistGet ((joinHandler (connectHandler initState "a" 0) "a" "room_1" 0).1).rooms
        "room_1" = some ["a"] := by
  refine ⟨?_, by decide, by decide, by decide⟩
  unfold joinHandler
  rw [if_pos h]

theorem c8_room_id_validation_witness :
    joinHandler initState "a" "ab" 0
        = (initState, [("a", SEvent.errorEvent "room" ROOM_INVALID_MSG)])
  ∧ validRoomId "ab" = false
  ∧ validRoomId "room_1" = true
  ∧ alistGet ((joinHandler (connectHandler initState "a" 0) "a" "room_1" 0).1).rooms
        "room_1" = some ["a"] :=
  c8_room_id_validation initState "a" "ab" 0 (by decide)

/-- C4: a chat-message broadcast is independent of any client-supplied author
field — two payloads agreeing on text and timestamp produce identical handler
results — and every broadcast `chat-message` event carries the author resolved
server-side from the display-name registry, with the guest label as
fallback. -/
theorem c4_author_server_side (st : ServerState) (sid : String) (p q : ChatPayload)
    (now : Nat) (tgt a tx : String) (ts : Int)
    (ht : p.text = q.text) (hts : p.timestamp = q.timestamp)
    (hmem : (tgt, SEvent.chatMessage a tx ts) ∈ (chatMessageHandler st sid p now).2) :
    chatMessageHandler st sid p now = chatMessageHandler st sid q now
  ∧ a = (alistGet st.names sid).getD GUEST_NAME := by
  constructor
  · simp only [chatMessageHandler, ht, hts]
  · revert hmem
    simp only [chatMessageHandler]
    split
    · intro hmem
      simp at hmem
    · split
      · intro hmem
        simp at hmem
      · split
        · intro hmem
          simp at hmem
        · intro hmem
          simp only [List.mem_map] at hmem
          obtain ⟨pid, _, heq⟩ := hmem
          have hsnd := congrArg Prod.snd heq
          simp only [SEvent.chatMessage.injEq] at hsnd
          exact hsnd.1.symm

theorem c4_author_server_side_witness :
    chatMessageHandler stSameRoomNamed "b" ⟨"Mallory", "hi there", 7⟩ 5000
      = chatMessageHandler stSameRoomNamed "b" ⟨"", "hi there", 7⟩ 5000
  ∧ "Alice" = (alistGet stSameRoomNamed.names "b").getD GUEST_NAME :=
  c4_author_server_side stSameRoomNamed "b" ⟨"Mallory", "hi there", 7⟩ ⟨"", "hi there", 7⟩
    5000 "a" "Alice" "hi there" 7 rfl rfl (by decide)

/-- C5: for a valid name and a sender currently in room r with member list
peers, the set-user-name request is rejected with an `error` of type
`username` exactly when some other member of that same room already holds the
name (members of other rooms are irrelevant); on success the name is stored
and every member of the room receives a `user-name-set` event, the sender
included as acknowledgment. -/
theorem c5_name_unique_per_room (st : ServerState) (sid userName r : String)
    (peers : List String)
    (hv : validateUserName userName = true)
    (hcur : currentRoom st sid = some r)
    (hroom : alistGet st.rooms r = some peers) :
    (nameTakenBy st.names sid userName peers = true →
       setUserNameHandler st sid userName
         = (st, [(sid, SEvent.errorEvent "username" USERNAME_TAKEN_MSG)]))
  ∧ (nameTakenBy st.names sid userName peers = false →
       setUserNameHandler st sid userName
         = ({ st with names := alistSet sid userName st.names },
            (setDelete sid peers).map (fun pid => (pid, SEvent.userNameSet sid userName))
              ++ [(sid, SEvent.userNameSet sid userName)]))
  ∧ (nameTakenBy st.names sid userName peers = true
       ↔ ∃ pid ∈ peers, pid ≠ sid ∧ alistGet st.names pid = some userName) := by
  have hv' : ¬ (validateUserName userName = false) := by simp [hv]
  refine ⟨?_, ?_, nameTakenBy_iff st.names sid userName peers⟩
  · intro htaken
    simp only [setUserNameHandler, if_neg hv', hcur, hroom, Option.getD_some, htaken,
      if_true]
  · intro htaken
    simp only [setUserNameHandler, if_neg hv', hcur, hroom, Option.getD_some, htaken]
    rw [if_neg Bool.false_ne_true]

theorem c5_name_unique_per_room_witness :
    (nameTakenBy stTwoRooms.names "a" "Alice" ["a"] = true →
       setUserNameHandler stTwoRooms "a" "Alice"
         = (stTwoRooms, [("a", SEvent.errorEvent "username" USERNAME_TAKEN_MSG)]))
  ∧ (nameTakenBy stTwoRooms.names "a" "Alice" ["a"] = false →
       setUserNameHandler stTwoRooms "a" "Alice"
         = ({ stTwoRooms with names := alistSet "a" "Alice" stTwoRooms.names },
            (setDelete "a" ["a"]).map (fun pid => (pid, SEvent.userNameSet "a" "Alice"))
              ++ [("a", SEvent.userNameSet "a" "Alice")]))
  ∧ (nameTakenBy stTwoRooms.names "a" "Alice" ["a"] = true
       ↔ ∃ pid ∈ ["a"], pid ≠ "a" ∧ alistGet stTwoRooms.names pid = some "Alice") :=
  c5_name_unique_per_room stTwoRooms "a" "Alice" "roomA" ["a"]
    (by decide) (by decide) (by decide)

/-- C6 counterexample: with a and b both in room_1, running the disconnect
handler for a and then applying it a second time emits another `peer-left`
event to b — because the handler never clears the `currentRoomId` closure
variable — refuting the claim that a second disconnect emits no events. -/
theorem c6_counterexample :
    (disconnectHandler stPair "a").2 = [("b", SEvent.peerLeft "a")]
  ∧ (disconnectHandler stPairAfterDisc "a").2 = [("b", SEvent.peerLeft "a")] :=
  ⟨by decide, by decide⟩

/-- C6 amended: disconnect removes the connection's membership from its
current room (each remaining member receives exactly one `peer-left` for it,
and the room entry is deleted when it becomes empty), deletes the display-name
entry and the activity record, and a second application changes no state; it
is not idempotent on events — a second application re-emits `peer-left` to
remaining members, since the handler never clears `currentRoomId`. -/
theorem c6_disconnect_cleanup (st : ServerState) (sid r pid : String)
    (peers : List String)
    (hcur : currentRoom st sid = some r)
    (hroom : alistGet st.rooms r = some peers)
    (hnd : peers.Nodup) (hpid : pid ∈ peers) (hpne : pid ≠ sid) :
    (disconnectHandler st sid).2
        = (setDelete sid peers).map (fun q => (q, SEvent.peerLeft sid))
  ∧ eventsFor pid (disconnectHandler st sid).2 = [SEvent.peerLeft sid]
  ∧ alistGet ((disconnectHandler st sid).1).rooms r
        = (if setDelete sid peers = [] then none else some (setDelete sid peers))
  ∧ alistGet ((disconnectHandler st sid).1).names sid = none
  ∧ alistGet ((disconnectHandler st sid).1).activity sid = none
  ∧ (disconnectHandler (disconnectHandler st sid).1 sid).1 = (disconnectHandler st sid).1 := by
  have hevs : (disconnectHandler st sid).2
      = (setDelete sid peers).map (fun q => (q, SEvent.peerLeft sid)) := by
    rw [disconnectHandler_events, hcur]
    exact removePeer_snd st.rooms sid r peers hroom
  refine ⟨hevs, ?_, ?_, alistGet_erase_self sid st.names,
    alistGet_erase_self sid st.activity, disconnectHandler_state_idem st sid⟩
  · rw [hevs]
    exact eventsFor_map_self pid (SEvent.peerLeft sid) (setDelete sid peers)
      (nodup_setDelete sid peers hnd) ((mem_setDelete pid sid peers).mpr ⟨hpid, hpne⟩)
  · rw [disconnectHandler_rooms, hcur]
    simp only
    rw [removePeer_fst st.rooms sid r peers hroom]
    by_cases hsd : setDelete sid peers = []
    · rw [if_pos hsd, if_pos hsd]
      exact alistGet_erase_self r st.rooms
    · rw [if_neg hsd, if_neg hsd]
      exact alistGet_set_self r (setDelete sid peers) st.rooms

theorem c6_disconnect_cleanup_witness :
    (disconnectHandler stPair "a").2
        = (setDelete "a" ["a", "b"]).map (fun q => (q, SEvent.peerLeft "a"))
  ∧ eventsFor "b" (disconnectHandler stPair "a").2 = [SEvent.peerLeft "a"]
  ∧ alistGet ((disconnectHandler stPair "a").1).rooms "room_1"
        = (if setDelete "a" ["a", "b"] = [] then none else some (setDelete "a" ["a", "b"]))
  ∧ alistGet ((disconnectHandler stPair "a").1).names "a" = none
  ∧ alistGet ((disconnectHandler stPair "a").1).activity "a" = none
  ∧ (disconnectHandler (disconnectHandler stPair "a").1 "a").1
        = (disconnectHandler stPair "a").1 :=
  c6_disconnect_cleanup stPair "a" "room_1" "b" ["a", "b"]
    (by decide) (by decide) (by decide) (by decide) (by decide)

end Webrtc
